import Mathlib

/-!
Verification of the hybrid-search core, type/category filter resolution and
ingestion chunking/embedding policy of the paranormal-tracker repository.

The Python source is shallowly embedded: raw relevance scores become rationals,
Python dicts keyed by story id become association lists `List (Nat × ℚ)`,
database result rows become `StoryRow` records, and the control flow of
`scripts/search.py`, `web/backend/main.py`, `web/backend/models.py` and
`scripts/load_segments.py` is reproduced by executable definitions.
-/

namespace PTracker

/-! ## Score maps and normalization

`scripts/search.py` lines 128-136 build `id -> raw score` dicts and rescale
them by the observed maximum; `web/backend/main.py` lines 452-460 do the same
with a slightly different zero guard (`max(..., default=1) or 1`).
-/

/-- Association-list lookup with Python's `dict.get(k, 0)` default. -/
def getScore : List (Nat × ℚ) → Nat → ℚ
  | [], _ => 0
  | p :: rest, k => if p.1 = k then p.2 else getScore rest k

/-- Keys of a score map, in insertion order (Python `dict.keys()`). -/
def keys (m : List (Nat × ℚ)) : List Nat :=
  m.map Prod.fst

/-- Maximum of the values of a score map; `1` on the empty map, mirroring
`max(text_scores.values()) if text_scores else 1` in `scripts/search.py`
line 132 and `max(..., default=1)` in `web/backend/main.py` line 452. -/
def maxVal : List (Nat × ℚ) → ℚ
  | [] => 1
  | [p] => p.2
  | p :: q :: rest => max p.2 (maxVal (q :: rest))

/-- Score normalization as in `scripts/search.py` lines 132-136:
`{k: v / max_text if max_text else 0 for k, v in text_scores.items()}`. -/
def normalizeCli (m : List (Nat × ℚ)) : List (Nat × ℚ) :=
  let mx := maxVal m
  m.map (fun p => (p.1, if mx = 0 then 0 else p.2 / mx))

/-- Score normalization as in `web/backend/main.py` lines 452-460:
the divisor is `max((..., default=1)) or 1` and the division is unguarded. -/
def normalizeApi (m : List (Nat × ℚ)) : List (Nat × ℚ) :=
  let mx0 := maxVal m
  let mx := if mx0 = 0 then 1 else mx0
  m.map (fun p => (p.1, p.2 / mx))

theorem maxVal_le (m : List (Nat × ℚ)) (p : Nat × ℚ) (hp : p ∈ m) :
    p.2 ≤ maxVal m := by
  induction m with
  | nil => cases hp
  | cons q rest ih =>
    cases rest with
    | nil =>
      rcases List.mem_cons.mp hp with h | h
      · simp [maxVal, h]
      · cases h
    | cons q2 rest2 =>
      rcases List.mem_cons.mp hp with h | h
      · rw [h]; exact le_max_left _ _
      · exact le_trans (ih h) (le_max_right _ _)

theorem maxVal_mem (m : List (Nat × ℚ)) (hm : m ≠ []) :
    ∃ p ∈ m, p.2 = maxVal m := by
  induction m with
  | nil => exact absurd rfl hm
  | cons q rest ih =>
    cases rest with
    | nil => exact ⟨q, List.mem_cons_self _ _, rfl⟩
    | cons q2 rest2 =>
      rcases le_or_lt (maxVal (q2 :: rest2)) q.2 with h | h
      · exact ⟨q, List.mem_cons_self _ _, (max_eq_left h).symm⟩
      · rcases ih (by simp) with ⟨p, hpmem, hpval⟩
        exact ⟨p, List.mem_cons_of_mem _ hpmem, by rw [hpval, maxVal, max_eq_right h.le]⟩

theorem maxVal_nonneg (m : List (Nat × ℚ)) (hm : m ≠ [])
    (hpos : ∀ p ∈ m, 0 ≤ p.2) : 0 ≤ maxVal m := by
  rcases maxVal_mem m hm with ⟨p, hpmem, hpval⟩
  exact hpval ▸ hpos p hpmem

/-! ## Hybrid merge, sort and truncation

`scripts/search.py` lines 139-157: iterate over
`all_ids = set(text_scores.keys()) | set(vector_scores.keys())`, attach
`hybrid_score = alpha * vector_score + (1 - alpha) * text_score` with a
`.get(id_, 0)` default per signal, sort by `hybrid_score` descending
(Python's stable sort) and truncate to `limit`.  `web/backend/main.py`
lines 455-485 are the same computation.  Python's set iteration order is
not specified, so the enumeration of `all_ids` is an explicit parameter
here; `IsIdEnum` says a list is a valid enumeration of the union.
-/

/-- One combined hybrid result row (id plus the three scores attached in
`scripts/search.py` lines 150-153). -/
structure HResult where
  id : Nat
  hybrid : ℚ
  text : ℚ
  vec : ℚ
deriving DecidableEq, Repr

/-- The relation "sorts before or equal" used for the descending sort on
`hybrid_score` (`combined.sort(key=..., reverse=True)`). -/
def hybridGE (a b : HResult) : Prop :=
  b.hybrid ≤ a.hybrid

instance : DecidableRel hybridGE :=
  fun a b => inferInstanceAs (Decidable (b.hybrid ≤ a.hybrid))

instance : IsTotal HResult hybridGE :=
  ⟨fun a b => le_total b.hybrid a.hybrid⟩

instance : IsTrans HResult hybridGE :=
  ⟨fun _ _ _ h1 h2 => le_trans h2 h1⟩

/-- `ids` is a duplicate-free enumeration of the union of the two score
maps' key sets — the possible values of `set(text) | set(vector)`. -/
def IsIdEnum (ids : List Nat) (t v : List (Nat × ℚ)) : Prop :=
  ids.Nodup ∧ (∀ k ∈ ids, k ∈ keys t ∨ k ∈ keys v) ∧
    (∀ k ∈ keys t, k ∈ ids) ∧ (∀ k ∈ keys v, k ∈ ids)

instance (ids : List Nat) (t v : List (Nat × ℚ)) : Decidable (IsIdEnum ids t v) :=
  inferInstanceAs (Decidable (_ ∧ _ ∧ _ ∧ _))

/-- The loop body of `scripts/search.py` lines 145-154 over an enumeration of
`all_ids`: attach normalized sub-scores (0 when absent) and the blended score. -/
def combineAll (ids : List Nat) (tN vN : List (Nat × ℚ)) (alpha : ℚ) : List HResult :=
  ids.map (fun i =>
    { id := i
      hybrid := alpha * getScore vN i + (1 - alpha) * getScore tN i
      text := getScore tN i
      vec := getScore vN i })

/-- Stable descending sort on `hybrid_score`
(`combined.sort(key=lambda x: x["hybrid_score"], reverse=True)`). -/
def sortByHybrid (l : List HResult) : List HResult :=
  List.insertionSort hybridGE l

/-- Merge, sort and truncate already-normalized score maps
(`scripts/search.py` lines 139-157 after the normalization step). -/
def hybridRank (ids : List Nat) (tN vN : List (Nat × ℚ)) (alpha : ℚ)
    (limit : Nat) : List HResult :=
  (sortByHybrid (combineAll ids tN vN alpha)).take limit

/-- The CLI hybrid pipeline from raw score maps (`scripts/search.py`
`hybrid_search`, lines 128-157): normalize both signals with
`normalizeCli`, then merge/sort/truncate. -/
def hybridSearchCli (ids : List Nat) (tRes vRes : List (Nat × ℚ)) (alpha : ℚ)
    (limit : Nat) : List HResult :=
  hybridRank ids (normalizeCli tRes) (normalizeCli vRes) alpha limit

/-- The API hybrid pipeline from raw score maps (`web/backend/main.py`
lines 452-485): normalize with `normalizeApi`, then merge/sort/truncate. -/
def hybridSearchApi (ids : List Nat) (tRes vRes : List (Nat × ℚ)) (alpha : ℚ)
    (limit : Nat) : List HResult :=
  hybridRank ids (normalizeApi tRes) (normalizeApi vRes) alpha limit

/-! ## Database sub-queries and full search dispatch

A database table of candidate rows is a `List StoryRow`; `textQuery` and
`vectorQuery` model the `ORDER BY ... DESC LIMIT k` statements of
`scripts/search.py` lines 67-108 and `web/backend/main.py` lines 298-446,
including the `story_type = ANY(...)` filter clause that is added only when
the resolved type filter is non-empty.
-/

/-- A candidate row as returned by a datastore sub-query: story id, its
`story_type` tag and the signal's raw score (`ts_rank` or
`1 - cosine_distance`). -/
structure StoryRow where
  id : Nat
  stype : String
  score : ℚ
deriving DecidableEq, Repr

/-- Row filter: `type_filter` constrains the query only when non-empty
(`if type_filter:` in `web/backend/main.py`); the CLI has no filter, which
is the `[]` case. -/
def rowMatches (filter : List String) (r : StoryRow) : Bool :=
  filter.isEmpty || filter.contains r.stype

/-- Relation for the descending sort on the row score. -/
def rowGE (a b : StoryRow) : Prop :=
  b.score ≤ a.score

instance : DecidableRel rowGE :=
  fun a b => inferInstanceAs (Decidable (b.score ≤ a.score))

instance : IsTotal StoryRow rowGE :=
  ⟨fun a b => le_total b.score a.score⟩

instance : IsTrans StoryRow rowGE :=
  ⟨fun _ _ _ h1 h2 => le_trans h2 h1⟩

/-- A ranked sub-query: filter, order by score descending, `LIMIT k`. -/
def rankedQuery (db : List StoryRow) (filter : List String) (k : Nat) :
    List StoryRow :=
  (List.insertionSort rowGE (db.filter (rowMatches filter))).take k

/-- Raw score map built from a sub-query's rows
(`{r["id"]: r.get("rank", 0) for r in text_results}`). -/
def rowScores (rows : List StoryRow) : List (Nat × ℚ) :=
  rows.map (fun r => (r.id, r.score))

/-- The hybrid branch of `scripts/search.py` `hybrid_search` end to end:
both sub-queries are issued with limit `limit * 2` (lines 124-125), then the
score maps are normalized, merged, sorted and truncated to `limit`. -/
def hybridFromDbCli (textDb vecDb : List StoryRow) (ids : List Nat)
    (alpha : ℚ) (limit : Nat) : List HResult :=
  hybridSearchCli ids
    (rowScores (rankedQuery textDb [] (limit * 2)))
    (rowScores (rankedQuery vecDb [] (limit * 2)))
    alpha limit

/-- The hybrid branch of `web/backend/main.py` `search_stories` end to end:
both sub-queries use `request.limit * 2` (lines 407 and 431) under the
resolved type filter, then normalize/merge/sort/truncate to `request.limit`. -/
def hybridFromDbApi (textDb vecDb : List StoryRow) (filter : List String)
    (ids : List Nat) (alpha : ℚ) (limit : Nat) : List HResult :=
  hybridSearchApi ids
    (rowScores (rankedQuery textDb filter (limit * 2)))
    (rowScores (rankedQuery vecDb filter (limit * 2)))
    alpha limit

/-! ## Mode dispatch, embedding availability and errors

`web/backend/main.py` lines 286-296 fetch a query embedding for the
`vector` and `hybrid` modes; `get_query_embedding` returns `None` when no
credential is configured or every attempt fails.  Mode `vector` without an
embedding raises HTTP 400 before `get_db_cursor()` is entered; mode
`hybrid` without an embedding runs the plain text branch.  `scripts/search.py`
lines 252-276 do the same via the `--text-only` / `--vector-only` flags:
a missing key or a failed embedding call aborts only in `--vector-only`
mode and otherwise sets `args.text_only = True`.  The second component of
each result counts the datastore queries issued for the request.
-/

/-- Search mode (`search_type` pattern `^(hybrid|text|vector)$`). -/
inductive SearchMode where
  | text
  | vector
  | hybrid
deriving DecidableEq, Repr

/-- Errors surfaced to callers.  `embeddingUnavailable` stands for the
HTTP 400 `"Vector search requires embedding API"` of `web/backend/main.py`
line 291 and the `SystemExit` / exit-code-1 paths of `scripts/search.py`
lines 257 and 264-266. -/
inductive SearchError where
  | embeddingUnavailable
deriving DecidableEq, Repr

/-- A returned search row, mirroring the `SearchResult` model fields that
the three branches fill (`score`, `text_score`, `vector_score`). -/
structure SearchResultM where
  id : Nat
  score : ℚ
  textScore : Option ℚ
  vecScore : Option ℚ
deriving DecidableEq, Repr

/-- Rows returned by the text branch (`score=row["rank"]`,
`text_score=row["rank"]`, no vector score). -/
def textBranch (textDb : List StoryRow) (filter : List String) (limit : Nat) :
    List SearchResultM :=
  (rankedQuery textDb filter limit).map
    (fun r => { id := r.id, score := r.score, textScore := some r.score, vecScore := none })

/-- Rows returned by the vector branch (`score=row["similarity"]`,
`vector_score=row["similarity"]`, no text score). -/
def vecBranch (vecDb : List StoryRow) (filter : List String) (limit : Nat) :
    List SearchResultM :=
  (rankedQuery vecDb filter limit).map
    (fun r => { id := r.id, score := r.score, textScore := none, vecScore := some r.score })

/-- Rows returned by the hybrid branch. -/
def hybridBranchApi (textDb vecDb : List StoryRow) (filter : List String)
    (ids : List Nat) (alpha : ℚ) (limit : Nat) : List SearchResultM :=
  (hybridFromDbApi textDb vecDb filter ids alpha limit).map
    (fun r => { id := r.id, score := r.hybrid, textScore := some r.text, vecScore := some r.vec })

/-- Rows returned by the CLI hybrid branch. -/
def hybridBranchCli (textDb vecDb : List StoryRow) (ids : List Nat)
    (alpha : ℚ) (limit : Nat) : List SearchResultM :=
  (hybridFromDbCli textDb vecDb ids alpha limit).map
    (fun r => { id := r.id, score := r.hybrid, textScore := some r.text, vecScore := some r.vec })

/-- `search_stories` of `web/backend/main.py` after filter resolution:
dispatch on `search_type` and embedding availability (`emb = none` models a
missing credential or an embedding provider failure).  The `Nat` component
counts datastore queries issued. -/
def apiSearch (mode : SearchMode) (emb : Option (List ℚ))
    (textDb vecDb : List StoryRow) (filter : List String) (ids : List Nat)
    (alpha : ℚ) (limit : Nat) : Except SearchError (List SearchResultM) × Nat :=
  match mode, emb with
  | .text, _ => (.ok (textBranch textDb filter limit), 1)
  | .vector, none => (.error .embeddingUnavailable, 0)
  | .vector, some _ => (.ok (vecBranch vecDb filter limit), 1)
  | .hybrid, none => (.ok (textBranch textDb filter limit), 1)
  | .hybrid, some _ => (.ok (hybridBranchApi textDb vecDb filter ids alpha limit), 2)

/-- `main` of `scripts/search.py` lines 252-276: the embedding is fetched
only when `--text-only` is not set; on a missing key or provider failure
(`emb = none`) the run aborts in `--vector-only` mode and otherwise falls
back to the text-only dispatch.  The CLI has no type filter. -/
def cliSearch (textOnly vectorOnly : Bool) (emb : Option (List ℚ))
    (textDb vecDb : List StoryRow) (ids : List Nat) (alpha : ℚ)
    (limit : Nat) : Except SearchError (List SearchResultM) × Nat :=
  if textOnly then (.ok (textBranch textDb [] limit), 1)
  else
    match emb with
    | none =>
      if vectorOnly then (.error .embeddingUnavailable, 0)
      else (.ok (textBranch textDb [] limit), 1)
    | some _ =>
      if vectorOnly then (.ok (vecBranch vecDb [] limit), 1)
      else (.ok (hybridBranchCli textDb vecDb ids alpha limit), 2)

/-! ## Request validation

`web/backend/models.py` lines 89-97, class `SearchRequest`: `query: str` has
no constraint, `limit` is `Field(ge=1, le=100)`, `search_type` must match
`^(hybrid|text|vector)$` and `alpha` is `Field(ge=0.0, le=1.0)`.  The CLI
(`scripts/search.py` lines 205-237) parses `--limit` as a bare `int` and
`--alpha` as a bare `float` with no range checks.
-/

/-- Pydantic validation of `SearchRequest` (`web/backend/models.py`
lines 89-97).  `q` is the request's `query` string: it is deliberately
unconstrained in the source. -/
def validSearchRequest (q : String) (limit : Int) (searchType : String)
    (alpha : ℚ) : Bool :=
  (1 ≤ limit && limit ≤ 100) &&
    (searchType = "hybrid" || searchType = "text" || searchType = "vector") &&
    (0 ≤ alpha && alpha ≤ 1)

/-! ## Type/category filter resolution

`web/backend/main.py` lines 274-284 (and the identical blocks in
`list_stories`, `get_map_stories`, `get_vector_space_points`) resolve the
request's framework/category selection against the fixed table
`FRAMEWORK_CATEGORIES` of `web/backend/models.py` lines 11-42.
-/

/-- The fixed framework/category table of `web/backend/models.py`
lines 11-42: framework key to (category key to story_type tags). -/
def FRAMEWORK_CATEGORIES : List (String × List (String × List String)) :=
  [("caps",
    [("temporal_lobe", ["precognition", "time_slip", "deja_vu"]),
     ("clinical_perceptual", ["shadow_person", "ghost", "doppelganger"]),
     ("chemosensory", ["phantom_smell", "other"]),
     ("sleep_related", ["sleep_paralysis", "obe", "nde"]),
     ("external_agent", ["alien_encounter", "possession", "haunting"])]),
   ("sleep_paralysis",
    [("intruder", ["shadow_person", "ghost", "alien_encounter"]),
     ("incubus", ["sleep_paralysis", "possession"]),
     ("vestibular_motor", ["obe", "nde", "time_slip"])]),
   ("hypnagogic",
    [("visual", ["ghost", "shadow_person", "doppelganger", "ufo"]),
     ("auditory", ["ghost", "haunting"]),
     ("tactile", ["sleep_paralysis", "possession"]),
     ("proprioceptive", ["obe", "time_slip"])])]

/-- Deduplicated union of all of a framework's category tag lists
(`for types in fw["categories"].values(): type_filter.extend(types)` then
`list(set(type_filter))`; modelled as a set, order irrelevant). -/
def allFrameworkTypes (cats : List (String × List String)) : List String :=
  (cats.foldr (fun c acc => c.2 ++ acc) []).dedup

/-- Filter resolution of `web/backend/main.py` lines 274-284: a known
framework resolves to the named category's tags when the category is known,
else to the union of all its categories; otherwise a supplied explicit type
list is used verbatim; otherwise there is no filter. -/
def resolveTypeFilter (framework category : Option String)
    (storyTypes : Option (List String)) : List String :=
  match framework with
  | some f =>
    match FRAMEWORK_CATEGORIES.lookup f with
    | some cats =>
      match category with
      | some c =>
        match cats.lookup c with
        | some ts => ts
        | none => allFrameworkTypes cats
      | none => allFrameworkTypes cats
    | none =>
      match storyTypes with
      | some l => l
      | none => []
  | none =>
    match storyTypes with
    | some l => l
    | none => []

/-! ## Ingestion: token estimate, chunking, embedding policy, mean pooling

From `scripts/load_segments.py`: `estimate_tokens` (lines 99-101) is
`int(len(text.split()) * 1.3)`; `chunk_text` (lines 104-131) greedily packs
paragraphs (`text.split("\n\n")`) into chunks of about `CHUNK_SIZE_TOKENS =
500` estimated tokens keeping the last paragraph as overlap when its own
estimate is under `CHUNK_OVERLAP_TOKENS = 50`; `load_segment_to_db`
(lines 288-299) embeds the full body in one call when the body's estimate is
strictly below `MAX_TOKENS_FOR_FULL_EMBED = 4000` and otherwise batch-embeds
the chunks and mean-pools them (`mean_pool_embeddings`, lines 200-211).

Text is modelled by its paragraph structure: a paragraph is any value of a
type `α` with a token-estimate function `tok : α → Nat`.  For the body-level
arithmetic a paragraph is its word count (`α := Nat`), since splitting on
whitespace makes the word count of `"\n\n".join(paras)` the sum of the
paragraphs' word counts, and the join of a singleton is the paragraph
itself.
-/

/-- `estimate_tokens` on a word count: `int(words * 1.3)`.  Exact rational
arithmetic `words * 13 / 10` agrees with the float computation for all
realistic sizes (the float error of `1.3` never crosses a `k/10` boundary). -/
def estimateTokensW (w : Nat) : Nat :=
  w * 13 / 10

/-- `CHUNK_SIZE_TOKENS` (`scripts/load_segments.py` line 46). -/
def CHUNK_SIZE_TOKENS : Nat := 500

/-- `CHUNK_OVERLAP_TOKENS` (`scripts/load_segments.py` line 47). -/
def CHUNK_OVERLAP_TOKENS : Nat := 50

/-- `MAX_TOKENS_FOR_FULL_EMBED` (`scripts/load_segments.py` line 45). -/
def MAX_TOKENS_FOR_FULL_EMBED : Nat := 4000

/-- `EMBEDDING_DIM` (`scripts/load_segments.py` line 44). -/
def EMBEDDING_DIM : Nat := 1024

/-- The paragraph loop of `chunk_text` (`scripts/load_segments.py`
lines 115-131) with its accumulators made explicit: the produced chunks so
far, the current chunk (a list of paragraphs, joined with blank lines on
output) and the running `current_tokens` counter.  On closing a chunk the
last paragraph is retained as overlap seed iff its own estimate is below
`overlap`, and `current_tokens` is recomputed from the seed alone. -/
def chunkTextAux {α : Type} (tok : α → Nat) (chunkSize overlap : Nat) :
    List α → List (List α) → List α → Nat → List (List α)
  | [], chunks, cur, _ =>
    if cur.isEmpty then chunks else chunks ++ [cur]
  | p :: rest, chunks, [], curTok =>
    chunkTextAux tok chunkSize overlap rest chunks [p] (curTok + tok p)
  | p :: rest, chunks, c0 :: cs, curTok =>
    let pt := tok p
    if chunkSize < curTok + pt then
      let lastP := (c0 :: cs).getLast (List.cons_ne_nil c0 cs)
      let cur2 := if tok lastP < overlap then [lastP] else []
      let curTok2 := if tok lastP < overlap then tok lastP else 0
      chunkTextAux tok chunkSize overlap rest (chunks ++ [c0 :: cs]) (cur2 ++ [p]) (curTok2 + pt)
    else
      chunkTextAux tok chunkSize overlap rest chunks (c0 :: cs ++ [p]) (curTok + pt)

/-- `chunk_text` (`scripts/load_segments.py` lines 104-131) on a paragraph
list. -/
def chunkText {α : Type} (tok : α → Nat) (chunkSize overlap : Nat)
    (paras : List α) : List (List α) :=
  chunkTextAux tok chunkSize overlap paras [] [] 0

/-- Embedding method recorded by `load_segment_to_db`: `"full"` for one
whole-body embedding call, `"chunked"`/`"mean_pooled"` for the batched
chunk path. -/
inductive EmbedMethod where
  | full
  | chunked
deriving DecidableEq, Repr

/-- The embedding decision of `load_segment_to_db` (`scripts/load_segments.py`
lines 288-299) on a body given as its list of paragraph word counts: below
the threshold, one embedding call with one input; otherwise one batched
call whose inputs are the chunks of `chunk_text`.  Returns the method and
the number of embedding inputs requested. -/
def embedPlan (body : List Nat) : EmbedMethod × Nat :=
  if estimateTokensW body.sum < MAX_TOKENS_FOR_FULL_EMBED then
    (.full, 1)
  else
    (.chunked, (chunkText estimateTokensW CHUNK_SIZE_TOKENS CHUNK_OVERLAP_TOKENS body).length)

/-- `mean_pool_embeddings` (`scripts/load_segments.py` lines 200-211):
zero vector of dimension `EMBEDDING_DIM` for no inputs, identity on a
single input, otherwise the per-dimension arithmetic mean (dimension taken
from the first embedding, as the Python accumulator does). -/
def meanPool : List (List ℚ) → List ℚ
  | [] => List.replicate EMBEDDING_DIM 0
  | [e] => e
  | e :: f :: rest =>
    let es := e :: f :: rest
    (List.range e.length).map
      (fun i => (es.foldl (fun acc emb => acc + emb.getD i 0) 0) / (es.length : ℚ))

/-! ## Helper lemmas -/

theorem getScore_eq_zero {m : List (Nat × ℚ)} {k : Nat} (h : k ∉ keys m) :
    getScore m k = 0 := by
  induction m with
  | nil => rfl
  | cons p rest ih =>
    have h1 : p.1 ≠ k := fun he => h (by simp [keys, he])
    have h2 : k ∉ keys rest := fun hk => h (by simp [keys] at hk ⊢; exact .inr hk)
    simp [getScore, h1, ih h2]

theorem mem_combineAll {r : HResult} {ids : List Nat} {tN vN : List (Nat × ℚ)}
    {alpha : ℚ} (h : r ∈ combineAll ids tN vN alpha) :
    r.id ∈ ids ∧ r.hybrid = alpha * getScore vN r.id + (1 - alpha) * getScore tN r.id ∧
      r.text = getScore tN r.id ∧ r.vec = getScore vN r.id := by
  rcases List.mem_map.mp h with ⟨i, hi, rfl⟩
  exact ⟨hi, rfl, rfl, rfl⟩

theorem combineAll_covers {ids : List Nat} {tN vN : List (Nat × ℚ)} {alpha : ℚ}
    {k : Nat} (hk : k ∈ ids) :
    ∃ r ∈ combineAll ids tN vN alpha, r.id = k :=
  ⟨_, List.mem_map_of_mem _ hk, rfl⟩

theorem mem_of_mem_hybridRank {r : HResult} {ids : List Nat}
    {tN vN : List (Nat × ℚ)} {alpha : ℚ} {limit : Nat}
    (h : r ∈ hybridRank ids tN vN alpha limit) :
    r ∈ combineAll ids tN vN alpha := by
  have h1 : r ∈ sortByHybrid (combineAll ids tN vN alpha) :=
    List.take_subset _ _ h
  exact (List.mem_insertionSort hybridGE).mp h1

theorem sorted_hybridRank (ids : List Nat) (tN vN : List (Nat × ℚ))
    (alpha : ℚ) (limit : Nat) :
    List.Sorted hybridGE (hybridRank ids tN vN alpha limit) :=
  List.Pairwise.sublist (List.take_sublist _ _)
    (List.sorted_insertionSort hybridGE (combineAll ids tN vN alpha))

theorem length_hybridRank (ids : List Nat) (tN vN : List (Nat × ℚ))
    (alpha : ℚ) (limit : Nat) :
    (hybridRank ids tN vN alpha limit).length ≤ limit := by
  simp [hybridRank]

theorem keys_normalizeCli (m : List (Nat × ℚ)) :
    keys (normalizeCli m) = keys m := by
  simp [keys, normalizeCli]

theorem keys_normalizeApi (m : List (Nat × ℚ)) :
    keys (normalizeApi m) = keys m := by
  simp [keys, normalizeApi]

/-! ## Claim C1 — score normalization -/

/-- C1, counterexample.  The claim says every normalized output of a
non-empty raw score map lies in [0,1].  It fails on raw maps with a negative
value (cosine similarity `1 - distance` can be negative): the CLI normalizer
maps `{0: 1, 1: -1}` to `{0: 1, 1: -1}`, whose value at key 1 is below 0,
and the API normalizer maps `{0: 0, 1: -1}` (maximum raw score zero, where
the claim demands every output be 0.0) to `{0: 0, 1: -1}`. -/
theorem claim1_counterexample :
    (1, (-1 : ℚ)) ∈ normalizeCli [(0, (1 : ℚ)), (1, -1)] ∧
    ¬ (∀ p ∈ normalizeCli [(0, (1 : ℚ)), (1, -1)], 0 ≤ p.2 ∧ p.2 ≤ 1) ∧
    maxVal [(0, (0 : ℚ)), (1, -1)] = 0 ∧
    (1, (-1 : ℚ)) ∈ normalizeApi [(0, (0 : ℚ)), (1, -1)] ∧
    ¬ (∀ p ∈ normalizeApi [(0, (0 : ℚ)), (1, -1)], p.2 = 0) := by
  refine ⟨?_, fun h => ?_, ?_, ?_, fun h => ?_⟩
  · norm_num [normalizeCli, maxVal]
  · have := (h (1, -1) (by norm_num [normalizeCli, maxVal])).1
    norm_num at this
  · norm_num [maxVal]
  · norm_num [normalizeApi, maxVal]
  · have := h (1, -1) (by norm_num [normalizeApi, maxVal])
    norm_num at this

/-- C1, amended: for every non-empty raw score map all of whose values are
nonnegative, both normalizers produce outputs in [0,1]; a key holding the
(then positive) maximum raw score maps to exactly 1.0; when the maximum raw
score is zero every output is 0.0; the empty map yields the empty output
map (so vacuously every output is 0.0), and no division by zero occurs —
the computation is total. -/
theorem claim1_normalization (m : List (Nat × ℚ)) (hne : m ≠ [])
    (hpos : ∀ p ∈ m, 0 ≤ p.2) :
    (∀ p ∈ normalizeCli m, 0 ≤ p.2 ∧ p.2 ≤ 1) ∧
    (∀ p ∈ normalizeApi m, 0 ≤ p.2 ∧ p.2 ≤ 1) ∧
    (0 < maxVal m → ∀ p ∈ m, p.2 = maxVal m →
      (p.1, (1 : ℚ)) ∈ normalizeCli m ∧ (p.1, (1 : ℚ)) ∈ normalizeApi m) ∧
    (maxVal m = 0 →
      (∀ p ∈ normalizeCli m, p.2 = 0) ∧ (∀ p ∈ normalizeApi m, p.2 = 0)) ∧
    normalizeCli [] = [] ∧ normalizeApi [] = [] := by
  have hmax : 0 ≤ maxVal m := maxVal_nonneg m hne hpos
  refine ⟨?_, ?_, ?_, ?_, rfl, rfl⟩
  · intro p hp
    rcases List.mem_map.mp hp with ⟨q, hq, rfl⟩
    rcases eq_or_lt_of_le hmax with h0 | h0
    · simp [← h0]
    · have hq0 := hpos q hq
      have hqle := maxVal_le m q hq
      simp only [ne_eq, h0.ne', not_false_eq_true, if_neg]
      exact ⟨div_nonneg hq0 hmax, (div_le_one h0).mpr hqle⟩
  · intro p hp
    rcases List.mem_map.mp hp with ⟨q, hq, rfl⟩
    have hq0 := hpos q hq
    have hqle := maxVal_le m q hq
    rcases eq_or_lt_of_le hmax with h0 | h0
    · have : q.2 = 0 := le_antisymm (h0 ▸ hqle) hq0
      simp [← h0, this]
    · simp only [h0.ne', if_neg, ne_eq, not_false_eq_true]
      exact ⟨div_nonneg hq0 hmax, (div_le_one h0).mpr hqle⟩
  · intro h0 p hp hpm
    constructor
    · have : (p.1, if maxVal m = 0 then (0 : ℚ) else p.2 / maxVal m) ∈ normalizeCli m :=
        List.mem_map_of_mem _ hp
      simpa [h0.ne', hpm, div_self h0.ne'] using this
    · have : (p.1, p.2 / (if maxVal m = 0 then 1 else maxVal m)) ∈ normalizeApi m :=
        List.mem_map_of_mem _ hp
      simpa [h0.ne', hpm, div_self h0.ne'] using this
  · intro h0
    constructor
    · intro p hp
      rcases List.mem_map.mp hp with ⟨q, hq, rfl⟩
      simp [h0]
    · intro p hp
      rcases List.mem_map.mp hp with ⟨q, hq, rfl⟩
      have : q.2 = 0 := le_antisymm (h0 ▸ maxVal_le m q hq) (hpos q hq)
      simp [h0, this]

/-- C1, witness: the amended normalization theorem applied to the concrete
raw score map `{0: 2, 1: 1}`. -/
theorem claim1_witness :
    (([(0, (2 : ℚ)), (1, 1)] : List (Nat × ℚ)) ≠ [] ∧
      (∀ p ∈ ([(0, (2 : ℚ)), (1, 1)] : List (Nat × ℚ)), 0 ≤ p.2)) ∧
    ((∀ p ∈ normalizeCli [(0, (2 : ℚ)), (1, 1)], 0 ≤ p.2 ∧ p.2 ≤ 1) ∧
      (∀ p ∈ normalizeApi [(0, (2 : ℚ)), (1, 1)], 0 ≤ p.2 ∧ p.2 ≤ 1) ∧
      (0 < maxVal [(0, (2 : ℚ)), (1, 1)] → ∀ p ∈ ([(0, (2 : ℚ)), (1, 1)] : List (Nat × ℚ)),
        p.2 = maxVal [(0, (2 : ℚ)), (1, 1)] →
        (p.1, (1 : ℚ)) ∈ normalizeCli [(0, (2 : ℚ)), (1, 1)] ∧
          (p.1, (1 : ℚ)) ∈ normalizeApi [(0, (2 : ℚ)), (1, 1)]) ∧
      (maxVal [(0, (2 : ℚ)), (1, 1)] = 0 →
        (∀ p ∈ normalizeCli [(0, (2 : ℚ)), (1, 1)], p.2 = 0) ∧
          (∀ p ∈ normalizeApi [(0, (2 : ℚ)), (1, 1)], p.2 = 0)) ∧
      normalizeCli [] = [] ∧ normalizeApi [] = []) :=
  ⟨⟨by simp, by norm_num⟩,
    claim1_normalization [(0, (2 : ℚ)), (1, 1)] (by simp) (by norm_num)⟩

/-! ## Claim C2 — hybrid blending formula -/

/-- C2: in both hybrid pipelines, every returned result carries
`hybrid_score = alpha * normalized_vector + (1 - alpha) * normalized_text`
of its story id; every story in the union of the two candidate key sets is
scored (is present in the combined list before truncation); and a story
absent from a signal's result set contributes normalized score 0 for that
signal (`dict.get(id, 0)`). -/
theorem claim2_hybrid_blend (ids : List Nat) (tRes vRes : List (Nat × ℚ))
    (alpha : ℚ) (limit : Nat) (henum : IsIdEnum ids tRes vRes) :
    (∀ r ∈ hybridSearchCli ids tRes vRes alpha limit,
      r.hybrid = alpha * getScore (normalizeCli vRes) r.id
        + (1 - alpha) * getScore (normalizeCli tRes) r.id ∧
      r.text = getScore (normalizeCli tRes) r.id ∧
      r.vec = getScore (normalizeCli vRes) r.id) ∧
    (∀ r ∈ hybridSearchApi ids tRes vRes alpha limit,
      r.hybrid = alpha * getScore (normalizeApi vRes) r.id
        + (1 - alpha) * getScore (normalizeApi tRes) r.id ∧
      r.text = getScore (normalizeApi tRes) r.id ∧
      r.vec = getScore (normalizeApi vRes) r.id) ∧
    (∀ k, k ∈ keys tRes ∨ k ∈ keys vRes →
      (∃ r ∈ combineAll ids (normalizeCli tRes) (normalizeCli vRes) alpha, r.id = k) ∧
      (∃ r ∈ combineAll ids (normalizeApi tRes) (normalizeApi vRes) alpha, r.id = k)) ∧
    (∀ k, k ∉ keys tRes →
      getScore (normalizeCli tRes) k = 0 ∧ getScore (normalizeApi tRes) k = 0) ∧
    (∀ k, k ∉ keys vRes →
      getScore (normalizeCli vRes) k = 0 ∧ getScore (normalizeApi vRes) k = 0) := by
  refine ⟨?_, ?_, ?_,
    fun k hk => ⟨getScore_eq_zero (keys_normalizeCli tRes ▸ hk),
      getScore_eq_zero (keys_normalizeApi tRes ▸ hk)⟩,
    fun k hk => ⟨getScore_eq_zero (keys_normalizeCli vRes ▸ hk),
      getScore_eq_zero (keys_normalizeApi vRes ▸ hk)⟩⟩
  · intro r hr
    have h := mem_combineAll (mem_of_mem_hybridRank hr)
    exact ⟨h.2.1, h.2.2.1, h.2.2.2⟩
  · intro r hr
    have h := mem_combineAll (mem_of_mem_hybridRank hr)
    exact ⟨h.2.1, h.2.2.1, h.2.2.2⟩
  · intro k hk
    have hkids : k ∈ ids := by
      rcases hk with h | h
      · exact henum.2.2.1 k h
      · exact henum.2.2.2 k h
    exact ⟨combineAll_covers hkids, combineAll_covers hkids⟩

/-- C2, witness: the end-to-end spec scenario (stories A=1, B=2, C=3,
lexical `{A: 0.8, B: 0.4}`, vector `{B: 0.9, C: 0.3}`, alpha 0.7,
limit 5). -/
theorem claim2_witness :
    IsIdEnum [1, 2, 3] [(1, (4/5 : ℚ)), (2, 2/5)] [(2, (9/10 : ℚ)), (3, 3/10)] ∧
    (∀ r ∈ hybridSearchCli [1, 2, 3] [(1, (4/5 : ℚ)), (2, 2/5)]
        [(2, (9/10 : ℚ)), (3, 3/10)] (7/10) 5,
      r.hybrid = (7/10) * getScore (normalizeCli [(2, (9/10 : ℚ)), (3, 3/10)]) r.id
        + (1 - 7/10) * getScore (normalizeCli [(1, (4/5 : ℚ)), (2, 2/5)]) r.id ∧
      r.text = getScore (normalizeCli [(1, (4/5 : ℚ)), (2, 2/5)]) r.id ∧
      r.vec = getScore (normalizeCli [(2, (9/10 : ℚ)), (3, 3/10)]) r.id) := by
  have henum : IsIdEnum [1, 2, 3] [(1, (4/5 : ℚ)), (2, 2/5)]
      [(2, (9/10 : ℚ)), (3, 3/10)] := by
    norm_num [IsIdEnum, keys]
  exact ⟨henum,
    (claim2_hybrid_blend [1, 2, 3] [(1, (4/5 : ℚ)), (2, 2/5)]
      [(2, (9/10 : ℚ)), (3, 3/10)] (7/10) 5 henum).1⟩

/-! ## Claim C3 — ordering, tie-breaking, truncation -/

/-- C3, counterexample.  The combined candidates are iterated in the order
of the Python set `all_ids = set(text) | set(vector)`, whose enumeration
order is not determined by the search inputs, and the descending stable
sort keys only on `hybrid_score`; so on a tie the returned order is not a
function of the inputs.  Here both `[1, 2]` and `[2, 1]` are duplicate-free
enumerations of the same candidate union `{1, 2}` for the same raw scores
(a tie at hybrid score 1/2), yet the two runs return different orders,
refuting "same inputs always yield the same order". -/
theorem claim3_counterexample :
    IsIdEnum [1, 2] [(1, (1 : ℚ)), (2, 1)] [] ∧
    IsIdEnum [2, 1] [(1, (1 : ℚ)), (2, 1)] [] ∧
    hybridSearchCli [1, 2] [(1, (1 : ℚ)), (2, 1)] [] (1/2) 2 ≠
      hybridSearchCli [2, 1] [(1, (1 : ℚ)), (2, 1)] [] (1/2) 2 := by
  refine ⟨by norm_num [IsIdEnum, keys], by norm_num [IsIdEnum, keys], ?_⟩
  norm_num [hybridSearchCli, hybridRank, combineAll, sortByHybrid, normalizeCli,
    maxVal, getScore, List.insertionSort, List.orderedInsert, hybridGE]

/-- C3, amended: both hybrid pipelines return a list sorted in descending
order of `hybrid_score` and truncated to at most the requested limit; the
order of results with equal hybrid score is the stable-sort image of the
candidate enumeration order, which the code leaves to Python set iteration
rather than fixing by story identifier. -/
theorem claim3_hybrid_order (ids : List Nat) (tRes vRes : List (Nat × ℚ))
    (alpha : ℚ) (limit : Nat) :
    List.Sorted hybridGE (hybridSearchCli ids tRes vRes alpha limit) ∧
    (hybridSearchCli ids tRes vRes alpha limit).length ≤ limit ∧
    List.Sorted hybridGE (hybridSearchApi ids tRes vRes alpha limit) ∧
    (hybridSearchApi ids tRes vRes alpha limit).length ≤ limit :=
  ⟨sorted_hybridRank _ _ _ _ _, length_hybridRank _ _ _ _ _,
    sorted_hybridRank _ _ _ _ _, length_hybridRank _ _ _ _ _⟩

/-! ## Claim C4 — degradation equivalence -/

/-- C4: when the embedding provider is unavailable (`emb = none`), a
hybrid-mode search returns exactly the same successful result, with the
same datastore traffic, as a pure text-mode search with the same database
contents, type filter and limit — at the API endpoint and at the CLI — and
no error is surfaced. -/
theorem claim4_degradation (textDb vecDb : List StoryRow) (filter : List String)
    (ids : List Nat) (alpha : ℚ) (limit : Nat) :
    apiSearch .hybrid none textDb vecDb filter ids alpha limit =
      apiSearch .text none textDb vecDb filter ids alpha limit ∧
    (apiSearch .hybrid none textDb vecDb filter ids alpha limit).1 =
      .ok (textBranch textDb filter limit) ∧
    cliSearch false false none textDb vecDb ids alpha limit =
      cliSearch true false none textDb vecDb ids alpha limit ∧
    (cliSearch false false none textDb vecDb ids alpha limit).1 =
      .ok (textBranch textDb [] limit) :=
  ⟨rfl, rfl, rfl, rfl⟩

/-! ## Claim C5 — vector-only failure -/

/-- C5: in explicit vector mode with no embedding available, both call
sites fail with the embedding-unavailable error, fall back to nothing, and
issue zero datastore queries for the request. -/
theorem claim5_vector_unavailable (textDb vecDb : List StoryRow)
    (filter : List String) (ids : List Nat) (alpha : ℚ) (limit : Nat) :
    apiSearch .vector none textDb vecDb filter ids alpha limit =
      (.error .embeddingUnavailable, 0) ∧
    cliSearch false true none textDb vecDb ids alpha limit =
      (.error .embeddingUnavailable, 0) :=
  ⟨rfl, rfl⟩

/-! ## Claim C6 — input validation -/

/-- C6, counterexample.  `SearchRequest` (`web/backend/models.py`
lines 89-97) places no constraint on `query`, so a request with empty query
text passes validation — it is not rejected before downstream calls, contrary
to the claim. -/
theorem claim6_counterexample :
    validSearchRequest "" 20 "hybrid" (7/10) = true := by
  norm_num [validSearchRequest]

/-- C6, amended: the API request model rejects a requested limit N ≤ 0 (in
fact anything outside [1,100]) and an alpha outside [0,1]; it accepts the
empty query — validity does not depend on the query string at all, so no
empty-query rejection happens at this or any call site. -/
theorem claim6_validation (q : String) (limit : Int) (st : String) (alpha : ℚ) :
    (limit ≤ 0 → validSearchRequest q limit st alpha = false) ∧
    (alpha < 0 ∨ 1 < alpha → validSearchRequest q limit st alpha = false) ∧
    validSearchRequest q limit st alpha = validSearchRequest "" limit st alpha := by
  refine ⟨fun hl => ?_, fun ha => ?_, rfl⟩
  · have : ¬ (1 ≤ limit) := by omega
    simp [validSearchRequest, this]
  · rcases ha with h | h
    · have : ¬ ((0 : ℚ) ≤ alpha) := not_le.mpr h
      simp [validSearchRequest, this]
    · have : ¬ (alpha ≤ 1) := not_le.mpr h
      simp [validSearchRequest, this]

/-- C6, witness: the amended validation theorem applied at limit 0 and at
alpha 2. -/
theorem claim6_witness :
    ((0 : Int) ≤ 0 ∧ validSearchRequest "ghost" 0 "hybrid" (1/2) = false) ∧
    (((2 : ℚ) < 0 ∨ (1 : ℚ) < 2) ∧ validSearchRequest "ghost" 20 "hybrid" 2 = false) :=
  ⟨⟨le_refl 0, (claim6_validation "ghost" 0 "hybrid" (1/2)).1 (le_refl 0)⟩,
    ⟨Or.inr (by norm_num),
      (claim6_validation "ghost" 20 "hybrid" 2).2.1 (Or.inr (by norm_num))⟩⟩

/-! ## Claim C7 — type/category filter resolution -/

theorem mem_allFrameworkTypes (cats : List (String × List String)) (t : String) :
    t ∈ allFrameworkTypes cats ↔ ∃ p ∈ cats, t ∈ p.2 := by
  rw [allFrameworkTypes, List.mem_dedup]
  induction cats with
  | nil => simp
  | cons c rest ih => simp [List.mem_append, ih]

/-- C7: filter resolution follows the claimed order.  A known framework
with a known category resolves to exactly that category's tag list; a known
framework with an unknown or absent category resolves to the deduplicated
union of all that framework's categories; an unknown framework behaves
identically to no framework with the same explicit types; with no (or
unknown) framework a supplied explicit list is used verbatim and otherwise
no filter applies; and re-resolving an already-resolved set as the explicit
type list returns it unchanged (idempotence — resolution is a pure function
of its inputs). -/
theorem claim7_filter_resolution (f c : String) (category : Option String)
    (sTypes : Option (List String)) (cats : List (String × List String))
    (ts : List String) :
    (FRAMEWORK_CATEGORIES.lookup f = some cats → cats.lookup c = some ts →
      resolveTypeFilter (some f) (some c) sTypes = ts) ∧
    (FRAMEWORK_CATEGORIES.lookup f = some cats →
      (category = none ∨ (category = some c ∧ cats.lookup c = none)) →
      (∀ t, t ∈ resolveTypeFilter (some f) category sTypes ↔ ∃ p ∈ cats, t ∈ p.2) ∧
        (resolveTypeFilter (some f) category sTypes).Nodup) ∧
    (FRAMEWORK_CATEGORIES.lookup f = none →
      resolveTypeFilter (some f) category sTypes =
        resolveTypeFilter none none sTypes) ∧
    (resolveTypeFilter none category sTypes = resolveTypeFilter none none sTypes) ∧
    (∀ l, resolveTypeFilter none none (some l) = l) ∧
    resolveTypeFilter none none none = [] ∧
    resolveTypeFilter none none (some (resolveTypeFilter (some f) category sTypes)) =
      resolveTypeFilter (some f) category sTypes := by
  refine ⟨?_, ?_, ?_, rfl, fun l => rfl, rfl, rfl⟩
  · intro hf hc
    simp [resolveTypeFilter, hf, hc]
  · intro hf hcat
    have hres : resolveTypeFilter (some f) category sTypes = allFrameworkTypes cats := by
      rcases hcat with h | ⟨h, hc⟩
      · simp [resolveTypeFilter, hf, h]
      · simp [resolveTypeFilter, hf, h, hc]
    rw [hres]
    exact ⟨fun t => mem_allFrameworkTypes cats t, List.nodup_dedup _⟩
  · intro hf
    cases sTypes with
    | none => simp [resolveTypeFilter, hf]
    | some l => simp [resolveTypeFilter, hf]

/-- C7, witness: resolution of the known framework `sleep_paralysis` with
its known category `intruder`, and of an unknown framework with explicit
types. -/
theorem claim7_witness :
    (FRAMEWORK_CATEGORIES.lookup "sleep_paralysis" =
        some [("intruder", ["shadow_person", "ghost", "alien_encounter"]),
          ("incubus", ["sleep_paralysis", "possession"]),
          ("vestibular_motor", ["obe", "nde", "time_slip"])] ∧
      [("intruder", ["shadow_person", "ghost", "alien_encounter"]),
          ("incubus", ["sleep_paralysis", "possession"]),
          ("vestibular_motor", ["obe", "nde", "time_slip"])].lookup "intruder" =
        some ["shadow_person", "ghost", "alien_encounter"]) ∧
    resolveTypeFilter (some "sleep_paralysis") (some "intruder") none =
      ["shadow_person", "ghost", "alien_encounter"] ∧
    (FRAMEWORK_CATEGORIES.lookup "unknown_framework" = none ∧
      resolveTypeFilter (some "unknown_framework") (some "intruder") (some ["ghost"]) =
        resolveTypeFilter none none (some ["ghost"])) := by
  refine ⟨⟨by decide, by decide⟩, ?_, by decide, ?_⟩
  · exact (claim7_filter_resolution "sleep_paralysis" "intruder" (some "intruder") none
      [("intruder", ["shadow_person", "ghost", "alien_encounter"]),
        ("incubus", ["sleep_paralysis", "possession"]),
        ("vestibular_motor", ["obe", "nde", "time_slip"])]
      ["shadow_person", "ghost", "alien_encounter"]).1 (by decide) (by decide)
  · exact (claim7_filter_resolution "unknown_framework" "intruder" (some "intruder")
      (some ["ghost"]) [] []).2.2.1 (by decide)

/-! ## Claim C8 — hybrid over-fetch of 2N candidates -/

theorem length_rankedQuery (db : List StoryRow) (filter : List String) (k : Nat) :
    (rankedQuery db filter k).length = min k (db.filter (rowMatches filter)).length := by
  simp [rankedQuery]

/-- C8: in hybrid mode both sub-queries are issued independently with limit
`2 * N`: each candidate list is the top `min (2N) (matching rows)` of its
signal (so each holds up to 2N candidates), and the stories scored by the
hybrid pipeline before truncation to N are exactly the union of the ids of
those two over-fetched result sets — for the API endpoint and likewise for
the CLI (which has no type filter). -/
theorem claim8_overfetch (textDb vecDb : List StoryRow) (filter : List String)
    (ids : List Nat) (alpha : ℚ) (limit : Nat)
    (henum : IsIdEnum ids (rowScores (rankedQuery textDb filter (limit * 2)))
      (rowScores (rankedQuery vecDb filter (limit * 2)))) :
    (rankedQuery textDb filter (limit * 2)).length =
      min (limit * 2) (textDb.filter (rowMatches filter)).length ∧
    (rankedQuery vecDb filter (limit * 2)).length =
      min (limit * 2) (vecDb.filter (rowMatches filter)).length ∧
    (∀ r ∈ hybridFromDbApi textDb vecDb filter ids alpha limit,
      r.id ∈ keys (rowScores (rankedQuery textDb filter (limit * 2))) ∨
      r.id ∈ keys (rowScores (rankedQuery vecDb filter (limit * 2)))) ∧
    (∀ k, k ∈ keys (rowScores (rankedQuery textDb filter (limit * 2))) ∨
        k ∈ keys (rowScores (rankedQuery vecDb filter (limit * 2))) →
      ∃ r ∈ combineAll ids
        (normalizeApi (rowScores (rankedQuery textDb filter (limit * 2))))
        (normalizeApi (rowScores (rankedQuery vecDb filter (limit * 2)))) alpha,
        r.id = k) ∧
    (filter = [] →
      ∀ r ∈ hybridFromDbCli textDb vecDb ids alpha limit,
        r.id ∈ keys (rowScores (rankedQuery textDb [] (limit * 2))) ∨
        r.id ∈ keys (rowScores (rankedQuery vecDb [] (limit * 2)))) := by
  refine ⟨length_rankedQuery _ _ _, length_rankedQuery _ _ _, ?_, ?_, ?_⟩
  · intro r hr
    have h := (mem_combineAll (mem_of_mem_hybridRank hr)).1
    exact henum.2.1 r.id h
  · intro k hk
    rcases hk with h | h
    · exact combineAll_covers (henum.2.2.1 k h)
    · exact combineAll_covers (henum.2.2.2 k h)
  · intro hfil r hr
    subst hfil
    have h := (mem_combineAll (mem_of_mem_hybridRank hr)).1
    exact henum.2.1 r.id h

/-- C8, witness: the over-fetch theorem applied to a concrete two-row
database with limit 1 (each sub-query limit is 2). -/
theorem claim8_witness :
    IsIdEnum [1, 2]
      (rowScores (rankedQuery [⟨1, "ghost", 1⟩, ⟨2, "ufo", 2⟩] [] (1 * 2)))
      (rowScores (rankedQuery [] [] (1 * 2))) ∧
    (rankedQuery [(⟨1, "ghost", 1⟩ : StoryRow), ⟨2, "ufo", 2⟩] [] (1 * 2)).length =
      min (1 * 2) (([⟨1, "ghost", 1⟩, ⟨2, "ufo", 2⟩] :
        List StoryRow).filter (rowMatches [])).length := by
  constructor
  · norm_num [IsIdEnum, keys, rowScores, rankedQuery, rowMatches, List.insertionSort,
      List.orderedInsert, rowGE, List.filter]
  · exact (claim8_overfetch [⟨1, "ghost", 1⟩, ⟨2, "ufo", 2⟩] [] [] [1, 2] 0 1
      (by norm_num [IsIdEnum, keys, rowScores, rankedQuery, rowMatches,
        List.insertionSort, List.orderedInsert, rowGE, List.filter])).1

/-! ## Chunking lemmas (claims C9 and C10) -/

theorem mem_chunkTextAux_of_mem_chunks {α : Type} (tok : α → Nat) (csz ov : Nat) :
    ∀ (rest : List α) (chunks : List (List α)) (cur : List α) (curTok : Nat)
      (c : List α), c ∈ chunks → c ∈ chunkTextAux tok csz ov rest chunks cur curTok := by
  intro rest
  induction rest with
  | nil =>
    intro chunks cur curTok c hc
    simp only [chunkTextAux]
    split
    · exact hc
    · exact List.mem_append_left _ hc
  | cons p rest ih =>
    intro chunks cur curTok c hc
    cases cur with
    | nil => exact ih _ _ _ c hc
    | cons c0 cs0 =>
      simp only [chunkTextAux]
      split
      · exact ih _ _ _ c (List.mem_append_left _ hc)
      · exact ih _ _ _ c hc

theorem mem_chunkTextAux_of_mem_cur {α : Type} (tok : α → Nat) (csz ov : Nat) :
    ∀ (rest : List α) (chunks : List (List α)) (cur : List α) (curTok : Nat)
      (x : α), x ∈ cur →
      ∃ c ∈ chunkTextAux tok csz ov rest chunks cur curTok, x ∈ c := by
  intro rest
  induction rest with
  | nil =>
    intro chunks cur curTok x hx
    cases cur with
    | nil => cases hx
    | cons c0 cs0 =>
      refine ⟨c0 :: cs0, ?_, hx⟩
      simp [chunkTextAux]
  | cons p rest ih =>
    intro chunks cur curTok x hx
    cases cur with
    | nil => cases hx
    | cons c0 cs0 =>
      simp only [chunkTextAux]
      split
      · exact ⟨c0 :: cs0,
          mem_chunkTextAux_of_mem_chunks tok csz ov rest _ _ _ _
            (List.mem_append_right _ (List.mem_singleton.mpr rfl)), hx⟩
      · exact ih _ _ _ x (by
          rw [List.cons_append]
          exact List.mem_cons.mpr ((List.mem_cons.mp hx).imp id (List.mem_append_left _)))

theorem mem_chunkTextAux_of_mem_rest {α : Type} (tok : α → Nat) (csz ov : Nat) :
    ∀ (rest : List α) (chunks : List (List α)) (cur : List α) (curTok : Nat)
      (x : α), x ∈ rest →
      ∃ c ∈ chunkTextAux tok csz ov rest chunks cur curTok, x ∈ c := by
  intro rest
  induction rest with
  | nil =>
    intro chunks cur curTok x hx
    cases hx
  | cons p rest ih =>
    intro chunks cur curTok x hx
    rcases List.mem_cons.mp hx with rfl | hx2
    · cases cur with
      | nil =>
        exact mem_chunkTextAux_of_mem_cur tok csz ov rest _ _ _ x
          (List.mem_singleton.mpr rfl)
      | cons c0 cs0 =>
        simp only [chunkTextAux]
        split
        · exact mem_chunkTextAux_of_mem_cur tok csz ov rest _ _ _ x
            (List.mem_append_right _ (List.mem_singleton.mpr rfl))
        · exact mem_chunkTextAux_of_mem_cur tok csz ov rest _ _ _ x (by
            rw [List.cons_append]
            exact List.mem_cons.mpr (Or.inr (List.mem_append_right _
              (List.mem_singleton.mpr rfl))))
    · cases cur with
      | nil => exact ih _ _ _ x hx2
      | cons c0 cs0 =>
        simp only [chunkTextAux]
        split
        · exact ih _ _ _ x hx2
        · exact ih _ _ _ x hx2

/-! ## Claim C10 — chunking preserves content -/

/-- C10: for every non-empty paragraph list (Python's `text.split("\n\n")`
of a non-empty text is non-empty), `chunk_text` returns a non-empty list of
chunks and every paragraph of the input appears in at least one chunk — the
greedy boundary policy may duplicate the overlap paragraph but drops none. -/
theorem claim10_chunking {α : Type} (tok : α → Nat) (csz ov : Nat)
    (paras : List α) (hne : paras ≠ []) :
    chunkText tok csz ov paras ≠ [] ∧
    ∀ p ∈ paras, ∃ c ∈ chunkText tok csz ov paras, p ∈ c := by
  have hmem : ∀ p ∈ paras, ∃ c ∈ chunkText tok csz ov paras, p ∈ c :=
    fun p hp => mem_chunkTextAux_of_mem_rest tok csz ov paras [] [] 0 p hp
  cases paras with
  | nil => exact absurd rfl hne
  | cons q qs =>
    rcases hmem q (List.mem_cons_self _ _) with ⟨c, hc, _⟩
    exact ⟨List.ne_nil_of_mem hc, hmem⟩

/-- C10, witness: chunking a concrete two-paragraph body (paragraph word
counts 500 and 500, per-paragraph estimates 650 tokens each, so the chunk
boundary fires) keeps both paragraphs. -/
theorem claim10_witness :
    (([500, 500] : List Nat) ≠ []) ∧
    (chunkText estimateTokensW CHUNK_SIZE_TOKENS CHUNK_OVERLAP_TOKENS [500, 500] ≠ [] ∧
      ∀ p ∈ ([500, 500] : List Nat),
        ∃ c ∈ chunkText estimateTokensW CHUNK_SIZE_TOKENS CHUNK_OVERLAP_TOKENS [500, 500],
          p ∈ c) :=
  ⟨by decide,
    claim10_chunking estimateTokensW CHUNK_SIZE_TOKENS CHUNK_OVERLAP_TOKENS
      [500, 500] (by decide)⟩

/-! ## Claim C9 — ingestion embedding policy -/

theorem estimateTokensW_eq_floor (w : Nat) :
    (estimateTokensW w : ℤ) = ⌊(w : ℚ) * (13 / 10)⌋ := by
  have h : ((w : ℚ) * (13 / 10)) = ((13 * w : ℤ) : ℚ) / ((10 : ℕ) : ℚ) := by
    push_cast
    ring
  rw [h, Rat.floor_intCast_div_natCast]
  simp only [estimateTokensW]
  omega

theorem estimateTokensW_ne_3999 (w : Nat) : estimateTokensW w ≠ 3999 := by
  simp only [estimateTokensW]
  omega

theorem length_meanPool (es : List (List ℚ))
    (hdim : ∀ e ∈ es, e.length = EMBEDDING_DIM) :
    (meanPool es).length = EMBEDDING_DIM := by
  match es with
  | [] => simp [meanPool]
  | [e] => simpa [meanPool] using hdim e (by simp)
  | e :: f :: rest =>
    simpa [meanPool] using hdim e (by simp)

theorem chunkText_ne_nil {α : Type} (tok : α → Nat) (csz ov : Nat)
    (paras : List α) (hne : paras ≠ []) :
    chunkText tok csz ov paras ≠ [] := by
  cases paras with
  | nil => exact absurd rfl hne
  | cons q qs =>
    rcases mem_chunkTextAux_of_mem_rest tok csz ov (q :: qs) [] [] 0 q
      (List.mem_cons_self _ _) with ⟨c, hc, _⟩
    exact List.ne_nil_of_mem hc

/-- C9, counterexample.  The claim requires at least 2 embedding inputs for
a document with estimated token count 4001.  A single-paragraph body of
3078 words estimates to 4001 tokens, takes the chunked path, but
`chunk_text` never splits inside a paragraph, so it yields exactly one
chunk and hence one embedding input. -/
theorem claim9_counterexample :
    estimateTokensW (List.sum [3078]) = 4001 ∧
    embedPlan [3078] = (.chunked, 1) ∧
    ¬ 2 ≤ (embedPlan [3078]).2 := by
  decide

/-- C9, amended: the token estimate is the integer truncation of word count
times 1.3 (and in particular no word count estimates to exactly 3999 — the
nearest realizable values are 3998 and 4000); a body whose estimate is
strictly below the threshold 4000 is embedded with the full method in one
embedding call with one input; a body at or above the threshold uses the
chunked method whose embedding inputs are exactly the chunks of
`chunk_text` — at least 1, but possibly fewer than 2; and the mean-pooled
story embedding of chunk embeddings of dimension 1024 again has dimension
1024. -/
theorem claim9_ingestion (w : Nat) (body : List Nat) (es : List (List ℚ))
    (hdim : ∀ e ∈ es, e.length = EMBEDDING_DIM) :
    ((estimateTokensW w : ℤ) = ⌊(w : ℚ) * (13 / 10)⌋ ∧ estimateTokensW w ≠ 3999) ∧
    (estimateTokensW body.sum < MAX_TOKENS_FOR_FULL_EMBED →
      embedPlan body = (.full, 1)) ∧
    (MAX_TOKENS_FOR_FULL_EMBED ≤ estimateTokensW body.sum →
      (embedPlan body).1 = .chunked ∧
      (embedPlan body).2 =
        (chunkText estimateTokensW CHUNK_SIZE_TOKENS CHUNK_OVERLAP_TOKENS body).length ∧
      1 ≤ (embedPlan body).2) ∧
    (meanPool es).length = EMBEDDING_DIM := by
  refine ⟨⟨estimateTokensW_eq_floor w, estimateTokensW_ne_3999 w⟩, ?_, ?_, length_meanPool es hdim⟩
  · intro hlt
    simp [embedPlan, hlt]
  · intro hge
    have hne : body ≠ [] := by
      intro hb
      rw [hb] at hge
      simp [estimateTokensW, MAX_TOKENS_FOR_FULL_EMBED] at hge
    have hplan : embedPlan body =
        (.chunked, (chunkText estimateTokensW CHUNK_SIZE_TOKENS CHUNK_OVERLAP_TOKENS body).length) := by
      simp [embedPlan, not_lt.mpr hge]
    refine ⟨by simp [hplan], by simp [hplan], ?_⟩
    rw [hplan]
    exact List.length_pos.mpr (chunkText_ne_nil _ _ _ body hne)

/-- C9, witness: the ingestion theorem applied at word count 10, a short
single-paragraph body of 100 words (estimate 130, full method) and an empty
chunk-embedding list. -/
theorem claim9_witness :
    (∀ e ∈ ([] : List (List ℚ)), e.length = EMBEDDING_DIM) ∧
    ((estimateTokensW 10 : ℤ) = ⌊(10 : ℚ) * (13 / 10)⌋ ∧ estimateTokensW 10 ≠ 3999) ∧
    (estimateTokensW (List.sum [100]) < MAX_TOKENS_FOR_FULL_EMBED →
      embedPlan [100] = (.full, 1)) ∧
    (MAX_TOKENS_FOR_FULL_EMBED ≤ estimateTokensW (List.sum [100]) →
      (embedPlan [100]).1 = .chunked ∧
      (embedPlan [100]).2 =
        (chunkText estimateTokensW CHUNK_SIZE_TOKENS CHUNK_OVERLAP_TOKENS [100]).length ∧
      1 ≤ (embedPlan [100]).2) ∧
    (meanPool []).length = EMBEDDING_DIM :=
  ⟨by simp, by
    have h := claim9_ingestion 10 [100] [] (by simp)
    simpa using h⟩

end PTracker
